import Mathlib

/-!
Shallow embedding of the voxel storage core of the `miners` repository:
the 16-bit packed cell encoding (`common/src/world/block/packed.rs`),
the type registry (`src/util/registry.rs`), the chunk container with its
slot arena (`common/src/world/chunk/index.rs`, `src/world/chunk/mod.rs`),
the block registry (`src/world/block/{meta,dynamic}.rs`), the typed-handle
release path (`src/world/block/borrow.rs`), the blockdef bit-size synthesis
(`src/world/block/blockdef/src/*`), and the world-level coordinate math and
chunk-loading counter (`src/world/world.rs`).

Machine integers (`u8`, `u16`, `usize`, `i32`) are modelled as `Nat` / `Int`
with explicit wrap-around (`% 2 ^ w`) where the source can overflow.
-/

namespace Miners

/-! ### Bits<6> — `src/util/bits.rs`

`Bits::<6>::new(val: u8)` masks to the low 6 bits: `val & (0xff >> (8 - 6))`. -/

/-- `Bits::<6>::new`: mask a byte to its low 6 bits (`val & (0xff >> 2)`). -/
def bits6New (v : Nat) : Nat :=
  v &&& (0xff >>> 2)

/-! ### Packed cells — `common/src/world/block/packed.rs`

A `Packed` is a `u16`, modelled as a `Nat` (callers keep it `< 2 ^ 16`). -/

namespace Packed

/-- The tag of a packed cell: `Repr::Val` (inline) or `Repr::Ptr` (slot). -/
inductive Repr where
  | val
  | ptr
deriving DecidableEq, Repr

/-- `Packed::tag`: `self.val.0 >> 15`, 0 is `Val`, 1 is `Ptr`. -/
def tag (w : Nat) : Repr :=
  if w >>> 15 == 0 then .val else .ptr

/-- `Packed::from_val(id, state)`: `(id.0 << 6) | state.inner() as u16`.
The `u16` shift wraps mod `2 ^ 16`; `state.inner()` is a `u8`. -/
def from_val (id state : Nat) : Nat :=
  ((id <<< 6) % 2 ^ 16) ||| (state % 2 ^ 8)

/-- `Packed::from_ptr(slot)`: `(1 << 15) | slot as u16`. -/
def from_ptr (slot : Nat) : Nat :=
  (1 <<< 15) ||| (slot % 2 ^ 16)

/-- `Packed::zeroed()`: `Val(0)`. -/
def zeroed : Nat := 0

/-- `Val::id`: `(self.0 & 0x7FC0) >> 6`. -/
def valId (w : Nat) : Nat :=
  (w &&& 0x7FC0) >>> 6

/-- `Val::state`: `Bits::new(self.0 as u8)`. -/
def valState (w : Nat) : Nat :=
  bits6New (w % 2 ^ 8)

/-- `Val::set_state(state)`: clear the low 6 bits, then or in
`state.inner() as u16`. -/
def set_state (w state : Nat) : Nat :=
  (w &&& 0xFFC0) ||| (state % 2 ^ 8)

/-- `Ptr::slot`: `(self.0 & 0x7FFF) as usize`. -/
def ptrSlot (w : Nat) : Nat :=
  w &&& 0x7FFF

end Packed

/-! ### Typed mutable handles — `src/world/block/borrow.rs`

`RefMutPriv::Val(T, &'a mut block::packed::Val)` holds the unpacked
temporary and (a borrow of) the cell word it came from.  On `Drop`, the
`Val` arm runs `packed.set_state(into_packed(state))`. -/

/-- `RefMutPriv::Val`: the unpacked temporary plus the borrowed cell word. -/
structure RefMutVal (T : Type) where
  temp : T
  back : Nat

/-- Taking a mutable typed handle from an inline cell: `unpack_into_mut` on a
`Typed<T>` cell builds `RefMutPriv::Val(self.unpack(), &mut self.0)`, where
`unpack` is `from_packed(self.0.state())`
(`common/src/world/block/dynamic.rs`). -/
def takeRefMutVal {T : Type} (from_packed : Nat → T) (w : Nat) : RefMutVal T :=
  ⟨from_packed (Packed.valState w), w⟩

/-- Releasing the handle: `impl Drop for RefMut`, `Val` arm, runs
`packed.set_state(into_packed(state))`; the result is the cell word after
release. -/
def releaseRefMutVal {T : Type} (into_packed : T → Nat) (r : RefMutVal T) : Nat :=
  Packed.set_state r.back (into_packed r.temp)

/-! ### Type registry — `src/util/registry.rs`

`Registry<T>` assigns dense ids to `TypeId` keys.  `TypeId`s are modelled as
`Nat`; `map: HashMap<TypeId, usize>` as an association list and
`rev: Vec<(TypeId, T)>` as a list. -/

/-- `util::Registry<T>`. -/
structure URegistry (M : Type) where
  map : List (Nat × Nat)
  rev : List (Nat × M)

namespace URegistry

/-- `Registry::default()`: both containers empty. -/
def empty (M : Type) : URegistry M := ⟨[], []⟩

/-- `HashMap::get(&type_id)` on the association-list model. -/
def mapLookup (m : List (Nat × Nat)) (k : Nat) : Option Nat :=
  match m with
  | [] => none
  | (k', v) :: rest => if k' = k then some v else mapLookup rest k

/-- `Registry::register::<K>(meta)`: when the key is absent, assign it the
next incremental id `self.rev.len()` and push `(type_id, meta)` onto `rev`;
a duplicate key is a no-op.  There is no id-space check and no error
result. -/
def register {M : Type} (r : URegistry M) (k : Nat) (meta : M) : URegistry M :=
  match mapLookup r.map k with
  | some _ => r
  | none => ⟨(k, r.rev.length) :: r.map, r.rev ++ [(k, meta)]⟩

/-- `Registry::id::<K>()`. -/
def idOf {M : Type} (r : URegistry M) (k : Nat) : Option Nat :=
  mapLookup r.map k

/-- `Registry::get(id)`: `self.rev.get(id)`. -/
def get {M : Type} (r : URegistry M) (id : Nat) : Option (Nat × M) :=
  r.rev.get? id

end URegistry

/-- Registering the keys `0, 1, …, n-1`, in order, into an empty registry
(each key standing for a distinct concrete type). -/
def registerRange (n : Nat) : URegistry Nat :=
  (List.range n).foldl (fun r k => URegistry.register r k 0) (URegistry.empty Nat)

/-! ### Block registry — `src/world/block/meta.rs`, `src/world/block/dynamic.rs` -/

/-- `block::Registry`: a `util::Registry` whose metadata payload is the
per-type vtable (`DynMetadata`, opaque here). -/
abbrev BlockRegistry := URegistry Nat

/-- The `TypeId` key standing for the `BlockAir` type. -/
def airTypeKey : Nat := 0

/-- `impl Default for Registry` (`src/world/block/dynamic.rs` and
`meta.rs`): the inner util registry is created empty; the
`registry.register::<crate::vanilla::blocks::BlockAir>()` call in the
source is commented out, so nothing is registered. -/
def BlockRegistry.mkDefault : BlockRegistry := URegistry.empty Nat

/-- `Registry::id::<T>()` on the block registry. -/
def BlockRegistry.id (r : BlockRegistry) (typeKey : Nat) : Option Nat :=
  URegistry.idOf r typeKey

/-- `Registry::register::<T>()` on the block registry. -/
def BlockRegistry.registerType (r : BlockRegistry) (typeKey vtable : Nat) : BlockRegistry :=
  URegistry.register r typeKey vtable

/-- The registry lookup performed by `create_ref` / `create_ref_mut`:
`self.0.get(packed.id().0)`, fetching the vtable stored for the cell's
numeric id. -/
def BlockRegistry.getVt (r : BlockRegistry) (id : Nat) : Option (Nat × Nat) :=
  URegistry.get r id

/-! ### Slot arena — the `slab::Slab` behind `Chunk::addr_blocks`

Modelled from the `slab` crate's documented behavior: each entry is
`Occupied` or `Vacant(next_free)`, a LIFO free list is threaded through the
vacant entries, and `remove` on a vacant or out-of-range key panics. -/

/-- One slab entry. -/
inductive SlabEntry (A : Type) where
  | occupied (v : A)
  | vacant (next : Nat)
deriving DecidableEq

/-- `slab::Slab<A>`: the entries plus the head of the free list. -/
structure Slab (A : Type) where
  entries : List (SlabEntry A)
  next : Nat
deriving DecidableEq

namespace Slab

/-- `Slab::default()`. -/
def empty (A : Type) : Slab A := ⟨[], 0⟩

/-- `Slab::get(key)`: `Some` exactly on occupied in-range keys. -/
def get? {A : Type} (s : Slab A) (key : Nat) : Option A :=
  match s.entries.get? key with
  | some (.occupied v) => some v
  | _ => none

/-- `Slab::insert(v) -> key`: reuse the head of the free list, or append. -/
def insert {A : Type} (s : Slab A) (v : A) : Nat × Slab A :=
  if s.next = s.entries.length then
    (s.next, ⟨s.entries ++ [.occupied v], s.next + 1⟩)
  else
    match s.entries.get? s.next with
    | some (.vacant n) => (s.next, ⟨s.entries.set s.next (.occupied v), n⟩)
    | _ => (s.next, s)

/-- `Slab::remove(key)`: returns the freed value and pushes the key onto
the free list; `none` models the panic on a vacant or out-of-range key. -/
def remove {A : Type} (s : Slab A) (key : Nat) : Option (A × Slab A) :=
  match s.entries.get? key with
  | some (.occupied v) => some (v, ⟨s.entries.set key (.vacant s.next), key⟩)
  | _ => none

end Slab

/-! ### Chunk — `src/world/chunk/mod.rs`, `common/src/world/chunk/index.rs` -/

/-- A 3-component vector (`vek::Vec3`). -/
structure Vec3 (α : Type) where
  x : α
  y : α
  z : α
deriving DecidableEq

/-- `Chunk::SIZE`. -/
def chunkSize : Nat := 32

/-- `Chunk::VOLUME`. -/
def chunkVolume : Nat := 32 * 32 * 32

/-- A block instance passed to `Chunk::set`: its type key (the `TypeId`
model) together with the `T::REPR`-directed payload — for `Repr::Val` the
6-bit packed state `into_packed(&block)` (a `Bits<6>`, hence `Fin 64`), for
`Repr::Ptr` the boxed object (opaque). -/
inductive BlockInst where
  | val (key : Nat) (state : Fin 64)
  | ptrObj (key : Nat) (obj : Nat)

/-- The `TypeId` of the instance's concrete type. -/
def BlockInst.key : BlockInst → Nat
  | .val k _ => k
  | .ptrObj k _ => k

/-- `Chunk`: cell array (flat, `VOLUME` entries), slot arena, registry
handle, chunk position. -/
structure Chunk where
  pos : Vec3 Int
  blocks : Nat → Nat
  addr_blocks : Slab Nat
  registry : BlockRegistry

namespace Chunk

/-- `Chunk::new(pos, registry)`: every cell `Packed::zeroed()`, empty
arena. -/
def new (pos : Vec3 Int) (registry : BlockRegistry) : Chunk :=
  ⟨pos, fun _ => Packed.zeroed, Slab.empty Nat, registry⟩

/-- `Chunk::in_bounds`. -/
def inBounds (p : Vec3 Nat) : Bool :=
  decide (p.x < chunkSize) && decide (p.y < chunkSize) && decide (p.z < chunkSize)

/-- `Chunk::flatten_idx`: `x + SIZE * (y + SIZE * z)`. -/
def flattenIdx (p : Vec3 Nat) : Nat :=
  p.x + chunkSize * (p.y + chunkSize * p.z)

/-- The `&dyn block::Object` a cell resolves to: for an inline cell, the
registry's vtable for the cell's id paired with the cell word; for a slot
cell, the borrowed arena entry. -/
inductive Handle where
  | inline (vtable : Nat × Nat) (word : Nat)
  | heap (obj : Nat)

/-- `Chunk::get_unchecked_flat`: branch on the tag, then either rebuild a
reference through the registry vtable (`Registry::create_ref`) or borrow
the arena entry.  `none` marks the unchecked accesses of the source going
out of range (`Registry::get_unchecked` past `rev.len()` for an
unregistered id, `Slab::get_unchecked` on a vacant slot): there the
returned reference is not valid. -/
def getUncheckedFlat (c : Chunk) (idx : Nat) : Option Handle :=
  let w := c.blocks idx
  match Packed.tag w with
  | .val => (BlockRegistry.getVt c.registry (Packed.valId w)).map fun e => Handle.inline e w
  | .ptr => (Slab.get? c.addr_blocks (Packed.ptrSlot w)).map Handle.heap

/-- `Chunk::get`: `None` on out-of-bounds positions, otherwise the resolved
cell. -/
def get (c : Chunk) (p : Vec3 Nat) : Option (Option Handle) :=
  if inBounds p then some (getUncheckedFlat c (flattenIdx p)) else none

/-- `Chunk::set_unchecked`: read the prior cell; if it is `Ptr`-tagged,
`Slab::remove` its slot; then look up the new block's id — when absent,
early-return leaving the cell untouched; otherwise write the new cell,
inserting into the arena for `Repr::Ptr` blocks.  `none` models the panic
of `Slab::remove` on a vacant key. -/
def setUnchecked (c : Chunk) (idx : Nat) (b : BlockInst) : Option Chunk :=
  let old := c.blocks idx
  let cleaned : Option Chunk :=
    if Packed.tag old = Packed.Repr.ptr then
      (Slab.remove c.addr_blocks (Packed.ptrSlot old)).map
        fun r => { c with addr_blocks := r.2 }
    else
      some c
  cleaned.bind fun c1 =>
    match BlockRegistry.id c1.registry b.key with
    | none => some c1
    | some id =>
      match b with
      | .val _ st =>
          some { c1 with
            blocks := fun i => if i = idx then Packed.from_val id st.val else c1.blocks i }
      | .ptrObj _ obj =>
          let r := Slab.insert c1.addr_blocks obj
          some { c1 with
            blocks := fun i => if i = idx then Packed.from_ptr r.1 else c1.blocks i,
            addr_blocks := r.2 }

/-- `Chunk::set`: a no-op when out of bounds, else `set_unchecked` at the
flattened index. -/
def set (c : Chunk) (p : Vec3 Nat) (b : BlockInst) : Option Chunk :=
  if inBounds p then setUnchecked c (flattenIdx p) b else some c

end Chunk

/-- Chunks reachable from `Chunk::new` by (non-panicking) `set` calls. -/
inductive ChunkReachable : Chunk → Prop where
  | new (pos : Vec3 Int) (registry : BlockRegistry) :
      ChunkReachable (Chunk.new pos registry)
  | set (c : Chunk) (p : Vec3 Nat) (b : BlockInst) (c' : Chunk) :
      ChunkReachable c → Chunk.set c p b = some c' → ChunkReachable c'

/-- The spec's invariant linking the two storages: every `Ptr`-tagged cell
refers to a live arena entry, and every live arena entry is referred to by
some cell. -/
def Linked (c : Chunk) : Prop :=
  (∀ idx < chunkVolume, Packed.tag (c.blocks idx) = Packed.Repr.ptr →
      (Slab.get? c.addr_blocks (Packed.ptrSlot (c.blocks idx))).isSome = true) ∧
  (∀ s : Nat, (Slab.get? c.addr_blocks s).isSome = true →
      ∃ idx < chunkVolume, Packed.tag (c.blocks idx) = Packed.Repr.ptr ∧
        Packed.ptrSlot (c.blocks idx) = s)

/-! #### A concrete scenario exercising `Chunk::set`

A registry holding a `Repr::Ptr` block type (key 1, think `BlockChest`) and
a `Repr::Val` block type (key 2, think `BlockWoodenPlanks`); key 99 stands
for a type that was never registered. -/

/-- Registry with key 1 (a heap block type, id 0) and key 2 (an inline
block type, id 1) registered. -/
def demoRegistry : BlockRegistry :=
  BlockRegistry.registerType (BlockRegistry.registerType BlockRegistry.mkDefault 1 0) 2 0

/-- The in-bounds position `(0,0,0)`. -/
def origin : Vec3 Nat := ⟨0, 0, 0⟩

/-- A fresh chunk over `demoRegistry`. -/
def demoChunk0 : Chunk := Chunk.new ⟨0, 0, 0⟩ demoRegistry

/-- After `set((0,0,0), chest)`: the cell is slot-shaped, slot 0 live. -/
def demoChunk1? : Option Chunk := Chunk.set demoChunk0 origin (BlockInst.ptrObj 1 42)

/-- After a further `set((0,0,0), unregistered)`: the arena entry is
removed, the registry lookup fails and the call early-returns. -/
def demoChunk2? : Option Chunk :=
  demoChunk1?.bind fun c => Chunk.set c origin (BlockInst.val 99 0)

/-! ### blockdef state synthesis — `src/world/block/blockdef/src/block_state.rs`,
`src/world/block/blockdef/src/lib.rs` -/

/-- A `#[prop(...)]` attribute: `Never` (`#[prop(!)]`), an integer range
(the parsed `Range<i32>`, kept by its bounds), or an `enum`-variant list
(kept by its length). -/
inductive Attribute where
  | never
  | range (lo hi : Int)
  | enumList (variants : Nat)

/-- `Attribute::bit_size`: `None` for `Never`; `range().len()` for a range
(`(hi - lo)` clamped at 0, the length of the parsed `Range<i32>`); and
`variants.len()` for an `enum` list. -/
def Attribute.bit_size : Attribute → Option Nat
  | .never => none
  | .range lo hi => some (hi - lo).toNat
  | .enumList k => some k

/-- `derive_block_state`'s bit budget:
`fields.iter().map(bit_size).sum::<Option<usize>>()`. -/
def totalBitSize (fields : List Attribute) : Option Nat :=
  fields.foldr
    (fun f acc =>
      match f.bit_size, acc with
      | some a, some b => some (a + b)
      | _, _ => none)
    (some 0)

/-- The two packing modes a derived type can get. -/
inductive ReprKind where
  | val
  | ptr
deriving DecidableEq

/-- `derive_block_state`'s packing decision: `Repr::Val` iff the budget is
`Some` and `≤ 6`, else `Repr::Ptr`. -/
def synthRepr (fields : List Attribute) : ReprKind :=
  match totalBitSize fields with
  | some n => if n ≤ 6 then .val else .ptr
  | none => .ptr

/-- Field offsets: the running sum of `bit_size` in declaration order
(`impl_into_packed`'s `offset` accumulator); `Never` fields never reach
this code path. -/
def fieldOffsets (fields : List Attribute) : List Nat :=
  (fields.foldl
    (fun acc f => ((acc.1 + (f.bit_size.getD 0)), acc.2 ++ [acc.1]))
    (0, [])).2

/-! ### World coordinate math — `src/world/world.rs`

`World::{get, get_mut, set}` locate the chunk with
`pos / Chunk::SIZE as i32` (Rust `i32` division truncates toward zero) and
the cell inside it with `pos.as_() & 0x1f` (the `as usize` cast wraps
two's-complement mod `2 ^ 64`, then the mask keeps the low 5 bits). -/

/-- One component of the chunk position used for the map lookup:
`pos / 32` in `i32`, i.e. division truncated toward zero. -/
def worldChunkCoord (p : Int) : Int := Int.tdiv p 32

/-- One component of the in-chunk index: `(pos as usize) & 0x1f`. -/
def worldLocalCoord (p : Int) : Nat := (Int.emod p (2 ^ 64)).toNat &&& 0x1f

/-! ### The chunk-loading counter — `src/world/world.rs`

`load_chunk` inserts the placeholder chunk and spawns the generation job,
then returns; the *worker* performs `count.fetch_add(1, Acquire)` as its
first statement, fills the chunk, publishes it by dropping the write lock,
and finally performs `count.fetch_sub(1, Release)`.
`num_chunks_loading` reads the counter.

Executions are modelled as interleavings: a trace is the list of atomic
events that have happened so far, and validity only requires each job's
events to occur in program order after its spawn — a spawned worker may not
have run at all yet, which is exactly what `rayon::spawn` permits.  All
counter accesses target the single shared atomic, so the counter value at
the end of a trace is determined by the trace. -/

/-- One atomic event of an execution. -/
inductive Ev where
  | load (j : Nat)
  | incr (j : Nat)
  | publish (j : Nat)
  | decr (j : Nat)
deriving DecidableEq

/-- The job a given event belongs to. -/
def Ev.job : Ev → Nat
  | .load j => j
  | .incr j => j
  | .publish j => j
  | .decr j => j

/-- The events of job `j`, in trace order. -/
def jobEvents (t : List Ev) (j : Nat) : List Ev :=
  t.filter fun e => e.job == j

/-- A trace of an execution of `n` `load_chunk` calls is valid when, for
every job, the events of that job that have happened so far are an initial
segment of `load, incr, publish, decr` — the engine's spawn followed by the
worker's program order, the worker having run any number of its steps. -/
def validTrace (n : Nat) (t : List Ev) : Prop :=
  ∀ j < n, List.isPrefixOf (jobEvents t j) [Ev.load j, Ev.incr j, Ev.publish j, Ev.decr j] = true

/-- The counter value at the end of a trace: increments minus decrements. -/
def counterVal (t : List Ev) : Int :=
  ((t.filter fun e => match e with | .incr _ => true | _ => false).length : Int) -
    ((t.filter fun e => match e with | .decr _ => true | _ => false).length : Int)

/-- Chunk `j` has been generated and published. -/
def published (t : List Ev) (j : Nat) : Prop := Ev.publish j ∈ t

/-- `load_chunk` has been called for every chunk in `0, …, n-1`. -/
def allLoaded (t : List Ev) (n : Nat) : Prop := ∀ j < n, Ev.load j ∈ t

/-! ## Theorems -/

/-! ### Bit-level helper lemmas -/

theorem bits6New_eq_mod (v : Nat) : bits6New v = v % 64 := by
  show v &&& (0xff >>> 2) = v % 64
  have h : (0xff : Nat) >>> 2 = 2 ^ 6 - 1 := rfl
  rw [h, Nat.and_pow_two_sub_one_eq_mod]

theorem valState_eq_mod (w : Nat) : Packed.valState w = w % 64 := by
  show bits6New (w % 2 ^ 8) = w % 64
  rw [bits6New_eq_mod, Nat.mod_mod_of_dvd w (by norm_num : (64 : Nat) ∣ 2 ^ 8)]

theorem set_state_eq (w s : Nat) (hs : s < 64) :
    Packed.set_state w s = (w &&& 0xFFC0) ||| s := by
  show (w &&& 0xFFC0) ||| (s % 2 ^ 8) = _
  rw [Nat.mod_eq_of_lt (by omega : s < 2 ^ 8)]

theorem testBit_mask_FFC0 (i : Nat) :
    (0xFFC0 : Nat).testBit i = (decide (6 ≤ i) && decide (i < 16)) := by
  rcases Nat.lt_or_ge i 16 with h | h
  · interval_cases i <;> decide
  · have h1 : (0xFFC0 : Nat).testBit i = false :=
      Nat.testBit_lt_two_pow
        (lt_of_lt_of_le (by norm_num) (Nat.pow_le_pow_right (by norm_num) h))
    have h2 : decide (i < 16) = false := decide_eq_false (by omega)
    rw [h1, h2, Bool.and_false]

theorem lor_mod_two_pow (a b n : Nat) :
    (a ||| b) % 2 ^ n = (a % 2 ^ n) ||| (b % 2 ^ n) := by
  apply Nat.eq_of_testBit_eq
  intro i
  by_cases h : i < n <;>
    simp [Nat.testBit_mod_two_pow, Nat.testBit_lor, h]

theorem land_mod_two_pow (a b n : Nat) :
    (a &&& b) % 2 ^ n = (a % 2 ^ n) &&& (b % 2 ^ n) := by
  apply Nat.eq_of_testBit_eq
  intro i
  by_cases h : i < n <;>
    simp [Nat.testBit_mod_two_pow, Nat.testBit_land, h]

theorem land_shiftRight (a b n : Nat) :
    (a &&& b) >>> n = (a >>> n) &&& (b >>> n) := by
  apply Nat.eq_of_testBit_eq
  intro i
  simp [Nat.testBit_shiftRight, Nat.testBit_land]

theorem set_state_shiftRight_six (w s : Nat) (hw : w < 2 ^ 16) (hs : s < 64) :
    Packed.set_state w s >>> 6 = w >>> 6 := by
  rw [set_state_eq w s hs]
  apply Nat.eq_of_testBit_eq
  intro i
  rw [Nat.testBit_shiftRight, Nat.testBit_shiftRight, Nat.testBit_lor, Nat.testBit_land,
    testBit_mask_FFC0]
  have hsb : s.testBit (6 + i) = false :=
    Nat.testBit_lt_two_pow
      (lt_of_lt_of_le hs
        (le_trans (by norm_num : (64 : Nat) ≤ 2 ^ 6)
          (Nat.pow_le_pow_right (by norm_num) (by omega))))
  rw [hsb, Bool.or_false]
  rcases Nat.lt_or_ge (6 + i) 16 with h | h
  · have d1 : decide (6 ≤ 6 + i) = true := decide_eq_true (by omega)
    have d2 : decide (6 + i < 16) = true := decide_eq_true h
    rw [d1, d2]
    simp
  · have d2 : decide (6 + i < 16) = false := decide_eq_false (by omega)
    have hwb : w.testBit (6 + i) = false :=
      Nat.testBit_lt_two_pow
        (lt_of_lt_of_le hw (Nat.pow_le_pow_right (by norm_num) (by omega)))
    rw [d2, hwb, Bool.and_false, Bool.false_and]

theorem tag_eq_of_shiftRight_six (v w : Nat) (h : v >>> 6 = w >>> 6) :
    Packed.tag v = Packed.tag w := by
  have key : ∀ u : Nat, u >>> 15 = (u >>> 6) >>> 9 := by
    intro u
    simp only [Nat.shiftRight_eq_div_pow, Nat.div_div_eq_div_mul]
  unfold Packed.tag
  rw [key v, key w, h]

theorem valId_eq_of_shiftRight_six (v w : Nat) (h : v >>> 6 = w >>> 6) :
    Packed.valId v = Packed.valId w := by
  have key : ∀ u : Nat, Packed.valId u = (u >>> 6) &&& 0x1FF := by
    intro u
    show (u &&& 0x7FC0) >>> 6 = _
    rw [land_shiftRight]
    rfl
  rw [key v, key w, h]

theorem valState_set_state (w s : Nat) (hs : s < 64) :
    Packed.valState (Packed.set_state w s) = s := by
  rw [valState_eq_mod, set_state_eq w s hs]
  have h64 : (64 : Nat) = 2 ^ 6 := by norm_num
  rw [h64, lor_mod_two_pow, land_mod_two_pow]
  have hc : (0xFFC0 : Nat) % 2 ^ 6 = 0 := by norm_num
  rw [hc, Nat.and_zero, Nat.zero_or, Nat.mod_eq_of_lt (by omega : s < 2 ^ 6)]

theorem set_state_valState_self (w : Nat) (hw : w < 2 ^ 16) :
    Packed.set_state w (Packed.valState w) = w := by
  rw [valState_eq_mod, set_state_eq w _ (Nat.mod_lt _ (by norm_num))]
  apply Nat.eq_of_testBit_eq
  intro i
  rw [Nat.testBit_lor, Nat.testBit_land, testBit_mask_FFC0]
  have hm : (w % 64).testBit i = (decide (i < 6) && w.testBit i) := by
    have h64 : (64 : Nat) = 2 ^ 6 := by norm_num
    rw [h64, Nat.testBit_mod_two_pow]
  rw [hm]
  rcases Nat.lt_or_ge i 6 with h | h
  · have d1 : decide (6 ≤ i) = false := decide_eq_false (by omega)
    have d2 : decide (i < 6) = true := decide_eq_true h
    simp [d1, d2]
  · rcases Nat.lt_or_ge i 16 with h2 | h2
    · have d1 : decide (6 ≤ i) = true := decide_eq_true h
      have d2 : decide (i < 16) = true := decide_eq_true h2
      have d3 : decide (i < 6) = false := decide_eq_false (by omega)
      simp [d1, d2, d3]
    · have hwb : w.testBit i = false :=
        Nat.testBit_lt_two_pow
          (lt_of_lt_of_le hw (Nat.pow_le_pow_right (by norm_num) (by omega)))
      have d2 : decide (i < 16) = false := decide_eq_false (by omega)
      simp [hwb, d2]

theorem testBit_two_pow_mul (i a j : Nat) :
    (2 ^ i * a).testBit j = if j < i then false else a.testBit (j - i) := by
  have h0 : (2 ^ i * a + 0).testBit j
      = if j < i then Nat.testBit 0 j else a.testBit (j - i) :=
    Nat.testBit_mul_pow_two_add a (by positivity) j
  simpa [Nat.zero_testBit] using h0

theorem lor_eq_add_of_lt (a b i : Nat) (hb : b < 2 ^ i) :
    (2 ^ i * a) ||| b = 2 ^ i * a + b := by
  apply Nat.eq_of_testBit_eq
  intro j
  rw [Nat.testBit_lor, Nat.testBit_mul_pow_two_add a hb j, testBit_two_pow_mul]
  by_cases h : j < i
  · simp [h]
  · have hbf : b.testBit j = false :=
      Nat.testBit_lt_two_pow
        (lt_of_lt_of_le hb (Nat.pow_le_pow_right (by norm_num) (by omega)))
    simp [h, hbf]

theorem from_val_eq_add (id st : Nat) (hid : id < 512) (hst : st < 64) :
    Packed.from_val id st = 64 * id + st := by
  show ((id <<< 6) % 2 ^ 16) ||| (st % 2 ^ 8) = 64 * id + st
  have h1 : id <<< 6 = 2 ^ 6 * id := by rw [Nat.shiftLeft_eq, Nat.mul_comm]
  rw [h1, Nat.mod_eq_of_lt (by omega : 2 ^ 6 * id < 2 ^ 16),
    Nat.mod_eq_of_lt (by omega : st < 2 ^ 8),
    lor_eq_add_of_lt id st 6 (by omega : st < 2 ^ 6)]
  norm_num

theorem from_ptr_eq_add (s : Nat) (hs : s < 2 ^ 15) :
    Packed.from_ptr s = 2 ^ 15 + s := by
  show (1 <<< 15) ||| (s % 2 ^ 16) = 2 ^ 15 + s
  have h1 : (1 : Nat) <<< 15 = 2 ^ 15 * 1 := by rw [Nat.shiftLeft_eq, Nat.mul_comm]
  rw [h1, Nat.mod_eq_of_lt (by omega : s < 2 ^ 16),
    lor_eq_add_of_lt 1 s 15 hs]
  norm_num

theorem valId_eq_div_mod (w : Nat) : Packed.valId w = (w / 64) % 512 := by
  show (w &&& 0x7FC0) >>> 6 = (w / 64) % 512
  rw [land_shiftRight]
  have h1 : (0x7FC0 : Nat) >>> 6 = 2 ^ 9 - 1 := rfl
  rw [h1, Nat.and_pow_two_sub_one_eq_mod, Nat.shiftRight_eq_div_pow]

theorem tag_eq_val_of_lt (w : Nat) (hw : w < 2 ^ 15) :
    Packed.tag w = Packed.Repr.val := by
  unfold Packed.tag
  have h : w >>> 15 = 0 := by
    rw [Nat.shiftRight_eq_div_pow]
    exact Nat.div_eq_of_lt hw
  simp [h]

theorem tag_eq_ptr_of_ge (w : Nat) (hw : 2 ^ 15 ≤ w) :
    Packed.tag w = Packed.Repr.ptr := by
  unfold Packed.tag
  have h : w >>> 15 ≠ 0 := by
    rw [Nat.shiftRight_eq_div_pow]
    exact Nat.pos_iff_ne_zero.mp (Nat.div_pos hw (by positivity))
  simp [h]

theorem ptrSlot_eq_mod (w : Nat) : Packed.ptrSlot w = w % 2 ^ 15 := by
  show w &&& 0x7FFF = w % 2 ^ 15
  have h : (0x7FFF : Nat) = 2 ^ 15 - 1 := by norm_num
  rw [h, Nat.and_pow_two_sub_one_eq_mod]

/-! ### Claim C6 — the packed-cell constructors and views -/

/-- Claim C6: for every `id ∈ [0,512)` and `state ∈ [0,64)`,
`Packed::from_val` yields a cell whose tag is `Val` and whose inline views
return exactly `(id, state)`; for every `s ∈ [0,32768)`, `Packed::from_ptr`
yields a cell whose tag is `Ptr` and whose slot view returns exactly `s`;
and `Packed::zeroed()` is an inline cell with id 0 and state 0.  Equality
is on the value of the 16-bit word (`Nat` in the model). -/
theorem packed_constructor_views :
    (∀ id < 512, ∀ st < 64,
      Packed.tag (Packed.from_val id st) = Packed.Repr.val ∧
      Packed.valId (Packed.from_val id st) = id ∧
      Packed.valState (Packed.from_val id st) = st) ∧
    (∀ s < 32768,
      Packed.tag (Packed.from_ptr s) = Packed.Repr.ptr ∧
      Packed.ptrSlot (Packed.from_ptr s) = s) ∧
    Packed.tag Packed.zeroed = Packed.Repr.val ∧
    Packed.valId Packed.zeroed = 0 ∧
    Packed.valState Packed.zeroed = 0 := by
  refine ⟨?_, ?_, by decide, by decide, by decide⟩
  · intro id hid st hst
    have he : Packed.from_val id st = 64 * id + st := from_val_eq_add id st hid hst
    refine ⟨?_, ?_, ?_⟩
    · rw [he]
      exact tag_eq_val_of_lt _ (by omega)
    · rw [he, valId_eq_div_mod, Nat.mul_add_div (by norm_num) id st,
        Nat.div_eq_of_lt hst, Nat.add_zero, Nat.mod_eq_of_lt hid]
    · rw [he, valState_eq_mod, Nat.mul_add_mod, Nat.mod_eq_of_lt hst]
  · intro s hs
    have hs15 : s < 2 ^ 15 := by omega
    have he : Packed.from_ptr s = 2 ^ 15 + s := from_ptr_eq_add s hs15
    constructor
    · rw [he]
      exact tag_eq_ptr_of_ge _ (by omega)
    · rw [he, ptrSlot_eq_mod, Nat.add_mod_left, Nat.mod_eq_of_lt hs15]

/-- Witness for C6: the theorem applied at `id = 3`, `state = 7` and at
slot `1234`. -/
theorem packed_constructor_views_witness :
    Packed.valId (Packed.from_val 3 7) = 3 ∧
    Packed.ptrSlot (Packed.from_ptr 1234) = 1234 :=
  ⟨(packed_constructor_views.1 3 (by decide) 7 (by decide)).2.1,
   (packed_constructor_views.2.1 1234 (by decide)).2⟩

/-! ### Claim C5 — releasing a mutable inline handle -/

/-- Claim C5: releasing a mutable typed handle in the Inline (`Val`)
variant writes `into_packed` of the current temporary into exactly the 6
state bits of the borrowed cell (the single `set_state` of the `Drop`
implementation), leaving every bit above the state field — the tag bit and
the 9 id bits — unchanged; and if no write occurred (the temporary is still
`from_packed` of the original state bits) and the pack/unpack pair
satisfies the round-trip law at those bits, the cell word after release
equals the word before the handle was taken. -/
theorem refMut_release_inline_commit {T : Type}
    (into_packed : T → Nat) (from_packed : Nat → T) (w : Nat) (t : T)
    (hw : w < 2 ^ 16) (ht : into_packed t < 64)
    (hlaw : into_packed (from_packed (Packed.valState w)) = Packed.valState w) :
    Packed.valState (releaseRefMutVal into_packed ⟨t, w⟩) = into_packed t ∧
    releaseRefMutVal into_packed ⟨t, w⟩ >>> 6 = w >>> 6 ∧
    Packed.tag (releaseRefMutVal into_packed ⟨t, w⟩) = Packed.tag w ∧
    Packed.valId (releaseRefMutVal into_packed ⟨t, w⟩) = Packed.valId w ∧
    releaseRefMutVal into_packed (takeRefMutVal from_packed w) = w := by
  refine ⟨valState_set_state w _ ht, set_state_shiftRight_six w _ hw ht,
    tag_eq_of_shiftRight_six _ _ (set_state_shiftRight_six w _ hw ht),
    valId_eq_of_shiftRight_six _ _ (set_state_shiftRight_six w _ hw ht), ?_⟩
  show Packed.set_state w (into_packed (from_packed (Packed.valState w))) = w
  rw [hlaw]
  exact set_state_valState_self w hw

/-- Witness for C5 at the concrete word `from_val 5 9`, temporary `33`, and
the pack/unpack pair `(· % 64, id)`. -/
theorem refMut_release_inline_commit_witness :
    Packed.valState (releaseRefMutVal (fun n => n % 64)
      (⟨33, Packed.from_val 5 9⟩ : RefMutVal Nat)) = 33 % 64 ∧
    releaseRefMutVal (fun n => n % 64)
      (⟨33, Packed.from_val 5 9⟩ : RefMutVal Nat) >>> 6 = Packed.from_val 5 9 >>> 6 ∧
    Packed.tag (releaseRefMutVal (fun n => n % 64)
      (⟨33, Packed.from_val 5 9⟩ : RefMutVal Nat)) = Packed.tag (Packed.from_val 5 9) ∧
    Packed.valId (releaseRefMutVal (fun n => n % 64)
      (⟨33, Packed.from_val 5 9⟩ : RefMutVal Nat)) = Packed.valId (Packed.from_val 5 9) ∧
    releaseRefMutVal (fun n => n % 64)
      (takeRefMutVal (fun n => n) (Packed.from_val 5 9)) = Packed.from_val 5 9 :=
  refMut_release_inline_commit (fun n => n % 64) (fun n => n) (Packed.from_val 5 9) 33
    (by decide) (by decide) (by decide)

/-! ### Claim C8 — id-space exhaustion at registration -/

theorem registerRange_succ (n : Nat) :
    registerRange (n + 1) = URegistry.register (registerRange n) n 0 := by
  unfold registerRange
  rw [List.range_succ, List.foldl_append, List.foldl_cons, List.foldl_nil]

theorem registerRange_spec (n : Nat) :
    (registerRange n).rev.length = n ∧
    (∀ k : Nat, URegistry.mapLookup (registerRange n).map k
      = if k < n then some k else none) := by
  induction n with
  | zero =>
      refine ⟨rfl, fun k => ?_⟩
      simp [registerRange, URegistry.empty, URegistry.mapLookup]
  | succ n ih =>
      obtain ⟨hlen, hmap⟩ := ih
      rw [registerRange_succ]
      have hr : URegistry.register (registerRange n) n 0
          = ⟨(n, n) :: (registerRange n).map, (registerRange n).rev ++ [(n, 0)]⟩ := by
        unfold URegistry.register
        rw [hmap n]
        simp [hlen]
      rw [hr]
      refine ⟨by simp [hlen], fun k => ?_⟩
      by_cases hk : n = k
      · subst hk
        simp [URegistry.mapLookup]
      · show URegistry.mapLookup ((n, n) :: (registerRange n).map) k = _
        unfold URegistry.mapLookup
        rw [if_neg hk, hmap k]
        by_cases hk2 : k < n
        · rw [if_pos hk2, if_pos (by omega)]
        · rw [if_neg hk2, if_neg (by omega)]

/-- Counterexample to claim C8: registering 513 distinct types (keys
`0, …, 512`) into an empty registry makes the 513th registration succeed
with numeric id 512 — at the 9-bit limit — and `Registry::register`
returns nothing, so no error is or can be surfaced at registration time. -/
theorem register_513th_gets_id_512 :
    URegistry.idOf (registerRange 513) 512 = some 512 := by
  show URegistry.mapLookup (registerRange 513).map 512 = some 512
  rw [(registerRange_spec 513).2 512, if_pos (by norm_num)]

/-- Claim C8 (amended): registration performs no id-space check; ids are
assigned monotonically without bound, the `(n+1)`-th distinct registration
silently receiving id `n` — in particular a 513th distinct registration
silently receives id 512 rather than surfacing a configuration error. -/
theorem register_monotonic_unbounded (n : Nat) :
    URegistry.idOf (registerRange (n + 1)) n = some n ∧
    (registerRange (n + 1)).rev.length = n + 1 := by
  refine ⟨?_, (registerRange_spec (n + 1)).1⟩
  show URegistry.mapLookup (registerRange (n + 1)).map n = some n
  rw [(registerRange_spec (n + 1)).2 n, if_pos (by omega)]

/-! ### Claim C2 — the default registry and the id-0 "air" binding -/

/-- Claim C2 fails (code bug): `impl Default for Registry` carries the doc
comment "Creates a new registry with just `vanilla:air` registered", but
the `registry.register::<crate::vanilla::blocks::BlockAir>()` call is
commented out.  A newly constructed block registry is empty: the lookup of
the default empty type returns `None` rather than id 0, and no type at all
is bound (to id 0 or any other). -/
theorem default_registry_air_lookup_fails :
    BlockRegistry.id BlockRegistry.mkDefault airTypeKey = none ∧
    BlockRegistry.mkDefault.rev = [] ∧
    (∀ k : Nat, BlockRegistry.id BlockRegistry.mkDefault k = none) :=
  ⟨rfl, rfl, fun _ => rfl⟩

/-! ### Claim C3 — `Chunk::get` bounds behavior and handle validity -/

/-- Claim C3 half-holds and half-fails (code bug).  `Chunk::get p` is
`None` exactly when some coordinate of `p` is `≥ 32` — that part is proved
here for every chunk.  But on a freshly created chunk over the default
registry the in-bounds result is not a valid handle: every cell is inline
with id 0, and resolving it runs `Registry::get_unchecked(0)` against an
empty registry (`rev.len() = 0`), an out-of-range unchecked read (modelled
`none`), because the id-0 "air" registration the code relies on never
happened. -/
theorem chunk_get_none_iff_oob_but_fresh_invalid :
    (∀ (c : Chunk) (p : Vec3 Nat),
      Chunk.get c p = none ↔ Chunk.inBounds p = false) ∧
    Chunk.inBounds origin = true ∧
    Chunk.get (Chunk.new ⟨0, 0, 0⟩ BlockRegistry.mkDefault) origin = some none ∧
    Chunk.get (Chunk.new ⟨0, 0, 0⟩ BlockRegistry.mkDefault) ⟨32, 0, 0⟩ = none := by
  refine ⟨fun c p => ?_, rfl, rfl, rfl⟩
  unfold Chunk.get
  by_cases h : Chunk.inBounds p
  · simp [h]
  · simp [h]

/-! ### Claim C4 — the cell–arena linking invariant under `set` -/

/-- Claim C4 fails (code bug): `Chunk::set_unchecked` removes the prior
cell's arena entry *before* looking the new type up in the registry, and
the unregistered-type early return leaves the cell untouched.  Concretely:
with a heap type registered under key 1, `set((0,0,0), heapBlock)` and then
`set((0,0,0), unregisteredBlock)` yield a reachable chunk whose cell
`(0,0,0)` is still slot-shaped on slot 0 while the arena holds no live
entry at 0 — the linking invariant is broken by an in-bounds `set`. -/
theorem set_unregistered_breaks_linking :
    ∃ c1 c2 : Chunk,
      demoChunk1? = some c1 ∧
      Chunk.set c1 origin (BlockInst.val 99 0) = some c2 ∧
      ChunkReachable c2 ∧
      Packed.tag (c2.blocks 0) = Packed.Repr.ptr ∧
      Slab.get? c2.addr_blocks (Packed.ptrSlot (c2.blocks 0)) = none ∧
      ¬ Linked c2 := by
  refine ⟨_, _, rfl, rfl, ?_, by decide, by decide, ?_⟩
  · exact ChunkReachable.set _ origin (BlockInst.val 99 0) _
      (ChunkReachable.set _ origin (BlockInst.ptrObj 1 42) _
        (ChunkReachable.new ⟨0, 0, 0⟩ demoRegistry) rfl) rfl
  · intro hL
    have h1 := hL.1 0 (by decide) (by decide)
    exact absurd h1 (by decide)

/-! ### Claim C10 — `Chunk::set` never panics, never frees a foreign slot -/

/-- Claim C10 fails (code bug): continuing from the dangling state that
claim C4's scenario reaches (reachable via `new` and in-bounds `set`s with
an unregistered type among them), the next in-bounds `set` at the same
position reads the slot-shaped cell and calls `Slab::remove` on the
already-vacant slot 0 — which panics (modelled `none`).  So the removed
slot is not always occupied, and `Chunk::set` can panic. -/
theorem set_after_dangling_panics :
    ∃ c2 : Chunk,
      demoChunk2? = some c2 ∧
      ChunkReachable c2 ∧
      Packed.tag (c2.blocks (Chunk.flattenIdx origin)) = Packed.Repr.ptr ∧
      Slab.get? c2.addr_blocks
        (Packed.ptrSlot (c2.blocks (Chunk.flattenIdx origin))) = none ∧
      Chunk.set c2 origin (BlockInst.val 2 0) = none := by
  refine ⟨_, rfl, ?_, by decide, by decide, rfl⟩
  exact ChunkReachable.set _ origin (BlockInst.val 99 0) _
    (ChunkReachable.set _ origin (BlockInst.ptrObj 1 42) _
      (ChunkReachable.new ⟨0, 0, 0⟩ demoRegistry) rfl) rfl

/-! ### Claim C7 — the synthesized bit widths -/

/-- Claim C7 fails (code bug): `Attribute::bit_size` returns the raw
variant count for an enum field (`variants.len()`) and the raw range
length for an integer range field (`range().len()`), not their base-2
ceil-logarithms — the widths the derive's own comments document (2 bits
for 3 variants, 2 bits for `4..8`).  An enum field with 3 listed variants
thus consumes 3 bits where the claim says `⌈log₂ 3⌉ = 2`; a range `[4,8)`
consumes 4 bits where the claim says 2; and a two-field type with 6
variants each (`BlockWoodenSlab`'s shape) totals 12 > 6 and is assigned
heap packing although its ceil-log budget 3 + 3 = 6 would be inline.
Offsets are indeed the running sum, of these raw sizes. -/
theorem bit_size_is_count_not_clog :
    Attribute.bit_size (Attribute.enumList 3) = some 3 ∧
    Nat.clog 2 3 = 2 ∧
    Attribute.bit_size (Attribute.range 4 8) = some 4 ∧
    Nat.clog 2 4 = 2 ∧
    totalBitSize [Attribute.enumList 6, Attribute.enumList 6] = some 12 ∧
    synthRepr [Attribute.enumList 6, Attribute.enumList 6] = ReprKind.ptr ∧
    Nat.clog 2 6 + Nat.clog 2 6 = 6 ∧
    fieldOffsets [Attribute.enumList 6, Attribute.enumList 6] = [0, 6] := by
  refine ⟨rfl, by norm_num [Nat.clog], rfl, by norm_num [Nat.clog], rfl, rfl,
    by norm_num [Nat.clog], rfl⟩

/-! ### Claim C1 — world-to-chunk coordinate math -/

/-- Claim C1 fails (code bug): `World::{get, get_mut, set}` locate the
chunk with `pos / Chunk::SIZE as i32` — Rust `i32` division, which
truncates toward zero — while the in-chunk index `pos.as_() & 0x1f` is the
Euclidean remainder.  At `pos = -1` the code reads chunk 0, cell 31, i.e.
the cell of world position 31 rather than -1 (truncation also aliases
positions -1 and 31 to the same cell), whereas the claimed Euclidean pair
is chunk -1, cell 31.  The code's own SAFETY comment calls the index
"euclidian reminder'd", but pairs it with a truncated quotient. -/
theorem world_coords_truncated_not_euclidean :
    worldChunkCoord (-1) = 0 ∧
    worldLocalCoord (-1) = 31 ∧
    Int.fdiv (-1) 32 = -1 ∧
    Int.emod (-1) 32 = 31 ∧
    32 * worldChunkCoord (-1) + (worldLocalCoord (-1) : Int) = 31 ∧
    worldChunkCoord (-1) = worldChunkCoord 31 ∧
    worldLocalCoord (-1) = worldLocalCoord 31 := by
  refine ⟨by decide, ?_, by decide, by decide, ?_, by decide, ?_⟩ <;> decide

/-! ### Claim C9 — observing the loading counter at zero -/

/-- Claim C9 fails (code bug): the worker performs
`count.fetch_add(1, Acquire)` as the first statement *inside* the spawned
job, so there are valid executions in which `load_chunk` has returned for
every requested chunk, no worker has yet run a single step, and
`num_chunks_loading()` reads 0 while no requested chunk has been
generated or published.  The one-job trace `[load 0]` is such an
execution: it is valid (each worker's events, here none, occur in program
order after its spawn), every load has happened, the counter reads 0, and
chunk 0 is unpublished. -/
theorem counter_zero_with_unpublished_chunk :
    validTrace 1 [Ev.load 0] ∧
    allLoaded [Ev.load 0] 1 ∧
    counterVal [Ev.load 0] = 0 ∧
    ¬ published [Ev.load 0] 0 := by
  refine ⟨?_, ?_, by decide, ?_⟩
  · intro j hj
    interval_cases j
    rfl
  · intro j hj
    interval_cases j
    exact List.mem_cons_self _ _
  · intro h
    simp [published] at h

end Miners
